import Mathlib

/-!
Shallow embedding of `script.module.simplecache` (src/lib/simplecache.py).

Python values stored in the cache are modelled by the inductive type `Value`
(primitives, sequences, mappings).  `serialize` models Python `repr` on such
values and `deserialize` models `eval` restricted to that textual grammar
(`eval` failure is modelled as `none`, which the cache code turns into a
raised exception, modelled by `Except.error`).  The Kodi window-property bag
is an association list of strings (`getProperty` of an unset key returns the
empty string); the sqlite table is an association list from ids to rows.
Timestamps are integers (the code converts datetimes with
`int(time.mktime(...))` before storing or comparing).
-/

/-- Model of the Python values the cache stores: ints, strings, tuples and
dicts (primitives, sequences, mappings). -/
inductive Value where
  | int : Int → Value
  | str : String → Value
  | tuple : List Value → Value
  | dict : List (Value × Value) → Value

/-- Python truthiness for modelled values: `0`, `""`, `()` and an empty dict
are falsy, everything else truthy. -/
def Value.truthy : Value → Bool
  | .int n => n ≠ 0
  | .str s => s ≠ ""
  | .tuple xs => !xs.isEmpty
  | .dict kvs => !kvs.isEmpty

/-- The double-quote character, used by the serialized form of strings. -/
def quoteChar : Char := Char.ofNat 34

/-- Opening brace character of a serialized dict. -/
def lbraceChar : Char := Char.ofNat 123

/-- Closing brace character of a serialized dict. -/
def rbraceChar : Char := Char.ofNat 125

mutual

/-- Model of Python `repr` on modelled values: ints print in decimal, strings
are surrounded by quotes, tuples print as `(a, b)` (with the trailing comma
of one-element tuples), dicts as `{k: v, ...}`. -/
def serialize : Value → String
  | .int n => toString n
  | .str s => String.singleton quoteChar ++ s ++ String.singleton quoteChar
  | .tuple [] => "()"
  | .tuple [x] => "(" ++ serialize x ++ ",)"
  | .tuple (x :: y :: rest) => "(" ++ serialize x ++ serializeItems (y :: rest) ++ ")"
  | .dict [] => "\x7b\x7d"
  | .dict ((k, v) :: rest) =>
      "\x7b" ++ serialize k ++ ": " ++ serialize v ++ serializePairs rest ++ "\x7d"

/-- Serialize the remaining elements of a tuple, each preceded by `, `. -/
def serializeItems : List Value → String
  | [] => ""
  | x :: rest => ", " ++ serialize x ++ serializeItems rest

/-- Serialize the remaining key/value pairs of a dict, each preceded by `, `. -/
def serializePairs : List (Value × Value) → String
  | [] => ""
  | (k, v) :: rest => ", " ++ serialize k ++ ": " ++ serialize v ++ serializePairs rest

end

/-- Accumulate decimal digits into a natural number, returning the value and
the unconsumed characters. -/
def parseDigits : List Char → Nat → Nat → (Nat × Nat × List Char)
  | [], acc, count => (acc, count, [])
  | c :: cs, acc, count =>
      if c.isDigit then parseDigits cs (acc * 10 + (c.toNat - 48)) (count + 1)
      else (acc, count, c :: cs)

/-- Parse a decimal integer literal with optional leading minus sign. -/
def parseInt : List Char → Option (Int × List Char)
  | [] => none
  | c :: cs =>
      if c = '-' then
        match parseDigits cs 0 0 with
        | (_, 0, _) => none
        | (n, _ + 1, rest) => some (-(n : Int), rest)
      else
        match parseDigits (c :: cs) 0 0 with
        | (_, 0, _) => none
        | (n, _ + 1, rest) => some ((n : Int), rest)

/-- Consume characters up to the next quote, returning the string body and the
characters after the closing quote. -/
def parseStrBody : List Char → Option (String × List Char)
  | [] => none
  | c :: cs =>
      if c = quoteChar then some ("", cs)
      else
        match parseStrBody cs with
        | some (s, rest) => some (String.singleton c ++ s, rest)
        | none => none

mutual

/-- Fueled recursive-descent parser for the textual grammar produced by
`serialize`; models Python `eval` on stored cache text.  Returns the parsed
value and the unconsumed characters, or `none` on a syntax error. -/
def parseVal : Nat → List Char → Option (Value × List Char)
  | 0, _ => none
  | _ + 1, [] => none
  | fuel + 1, c :: cs =>
      if c = quoteChar then
        match parseStrBody cs with
        | some (s, rest) => some (.str s, rest)
        | none => none
      else if c = '(' then
        match cs with
        | ')' :: rest => some (.tuple [], rest)
        | _ =>
            match parseVal fuel cs with
            | some (v, ',' :: ')' :: rest) => some (.tuple [v], rest)
            | some (v, rest) =>
                match parseItems fuel rest with
                | some (vs, rest') => some (.tuple (v :: vs), rest')
                | none => none
            | none => none
      else if c = lbraceChar then
        if cs.head? = some rbraceChar then some (.dict [], cs.tail)
        else
          match parseVal fuel cs with
          | some (k, ':' :: ' ' :: rest) =>
              match parseVal fuel rest with
              | some (v, rest') =>
                  match parsePairs fuel rest' with
                  | some (kvs, rest'') => some (.dict ((k, v) :: kvs), rest'')
                  | none => none
              | none => none
          | _ => none
      else
        match parseInt (c :: cs) with
        | some (n, rest) => some (.int n, rest)
        | none => none

/-- Parse the remainder of a multi-element tuple: a possibly empty run of
`, item` groups followed by the closing parenthesis. -/
def parseItems : Nat → List Char → Option (List Value × List Char)
  | 0, _ => none
  | _ + 1, ')' :: rest => some ([], rest)
  | fuel + 1, ',' :: ' ' :: cs =>
      match parseVal fuel cs with
      | some (v, rest) =>
          match parseItems fuel rest with
          | some (vs, rest') => some (v :: vs, rest')
          | none => none
      | none => none
  | _ + 1, _ => none

/-- Parse the remainder of a dict: a possibly empty run of `, k: v` groups
followed by the closing brace. -/
def parsePairs : Nat → List Char → Option (List (Value × Value) × List Char)
  | 0, _ => none
  | fuel + 1, c :: cs =>
      if c = rbraceChar then some ([], cs)
      else
        match c, cs with
        | ',', ' ' :: cs' =>
            match parseVal fuel cs' with
            | some (k, ':' :: ' ' :: rest) =>
                match parseVal fuel rest with
                | some (v, rest') =>
                    match parsePairs fuel rest' with
                    | some (kvs, rest'') => some ((k, v) :: kvs, rest'')
                    | none => none
                | none => none
            | _ => none
        | _, _ => none
  | _ + 1, [] => none

end

/-- Model of Python `eval` on stored cache text: parse the whole string as one
value, failing (an exception in the code) when the text is not a valid
serialized value. -/
def deserialize (s : String) : Option Value :=
  match parseVal (s.length + 1) s.data with
  | some (v, []) => some v
  | _ => none

/-- Serialized form of the memory-cache triple `(expires, data, checksum)`
written by `set_mem_cache` (line 111-112: `repr((expires, data, checksum))`). -/
def serializeTriple (expires : Int) (data : Value) (checksum : Int) : String :=
  serialize (.tuple [.int expires, data, .int checksum])

/-- Deserialize a stored memory-cache string and extract the
`(expires, data, checksum)` components, failing when the text does not
evaluate to such a triple. -/
def deserializeTriple (s : String) : Option (Int × Value × Int) :=
  match deserialize s with
  | some (.tuple [.int e, d, .int c]) => some (e, d, c)
  | _ => none

/-- Token derivation of `get`/`set` (lines 59 and 78):
`len(repr(checksum)) if checksum else 0`. -/
def deriveChecksum (v : Value) : Int :=
  if v.truthy then ((serialize v).length : Int) else 0

/-- Window-property bag (`xbmcgui.Window(10000)` properties): `getProperty`
of an unset key returns the empty string. -/
def getProp : List (String × String) → String → String
  | [], _ => ""
  | (k, v) :: rest, key => if k = key then v else getProp rest key

/-- `setProperty`: overwrite the property value for a key. -/
def setProp (props : List (String × String)) (key val : String) :
    List (String × String) :=
  (key, val) :: props.filter (fun p => p.1 ≠ key)

/-- `clearProperty`: remove the property, so that a later read yields `""`. -/
def clearProp (props : List (String × String)) (key : String) :
    List (String × String) :=
  props.filter (fun p => p.1 ≠ key)

/-- One row of the `simplecache` sqlite table (columns besides the unique
`id` key: `expires INTEGER, data TEXT, checksum INTEGER`). -/
structure DbRow where
  expires : Int
  data : String
  checksum : Int

/-- `SELECT expires, data, checksum FROM simplecache WHERE id = ?`. -/
def dbSelect : List (String × DbRow) → String → Option DbRow
  | [], _ => none
  | (k, row) :: rest, key => if k = key then some row else dbSelect rest key

/-- `INSERT OR REPLACE INTO simplecache(id, expires, data, checksum)`. -/
def dbUpsert (db : List (String × DbRow)) (key : String) (row : DbRow) :
    List (String × DbRow) :=
  (key, row) :: db.filter (fun p => p.1 ≠ key)

/-- `DELETE FROM simplecache WHERE id = ?`. -/
def dbDelete (db : List (String × DbRow)) (key : String) :
    List (String × DbRow) :=
  db.filter (fun p => p.1 ≠ key)

/-- `SELECT id, expires FROM simplecache` (the cleanup scan). -/
def dbScanAll (db : List (String × DbRow)) : List (String × Int) :=
  db.map (fun p => (p.1, p.2.expires))

/-- Outcome of one attempt of a sqlite statement: success, the retryable
`sqlite3.OperationalError` whose message is `database is locked`, or any
other exception. -/
inductive Attempt where
  | ok : Attempt
  | locked : Attempt
  | err : Attempt
deriving DecidableEq

/-- Backoff used by `execute_sql` between attempts:
`self.monitor.waitForAbort(0.5)`, i.e. 500 milliseconds. -/
def waitMs : Nat := 500

/-- Observable trace of one `execute_sql` call: the returned result (`none`
models the `return None` failure path), the number of statement attempts, the
list of backoff waits (in milliseconds) performed, and whether the closing
`Database ERROR !` warning was logged. -/
structure SqlTrace (α : Type) where
  result : Option α
  attempts : Nat
  waits : List Nat
  warned : Bool

/-- The `while not retries == 10` loop of `execute_sql` (lines 249-266).
`att i` is the outcome of attempt number `i`; `r` is the statement result on
success; the fuel argument is `10 - retries`.  On a locked error the code
increments `retries`, waits 500 ms and retries; on any other error it breaks;
falling out of the loop logs a warning and returns `None`. -/
def execSqlGo (att : Nat → Attempt) (r : α) : Nat → Nat → SqlTrace α
  | _, 0 => ⟨none, 0, [], true⟩
  | i, fuel + 1 =>
      match att i with
      | .ok => ⟨some r, 1, [], false⟩
      | .err => ⟨none, 1, [], true⟩
      | .locked =>
          let t := execSqlGo att r (i + 1) fuel
          ⟨t.result, t.attempts + 1, waitMs :: t.waits, t.warned⟩

/-- Full trace of `execute_sql`, starting with `retries = 0`. -/
def execSqlTrace (att : Nat → Attempt) (r : α) : SqlTrace α :=
  execSqlGo att r 0 10

/-- Return value of `execute_sql`: the statement result, or `None` after
exhausted retries or a non-retryable error. -/
def execSql (att : Nat → Attempt) (r : α) : Option α :=
  (execSqlTrace att r).result

/-- Exceptions that the cache's read path can raise to its caller. -/
inductive PyErr where
  | evalError : PyErr
  | unboundLocal : PyErr
deriving DecidableEq

/-- State of one `SimpleCache` instance: the window-property bag (memory
layer), the sqlite table (persistent layer), the `busy_tasks` list, the
`exit` flag and the `enable_mem_cache` class attribute. -/
structure CacheState where
  mem : List (String × String)
  db : List (String × DbRow)
  busyTasks : List String
  exitFlag : Bool
  enableMemCache : Bool

namespace SimpleCache

/-- `get_mem_cache` (lines 92-104): read the window property; if non-empty,
`eval` it (a parse failure or a non-triple shape raises) and return the
payload when unexpired and the checksum matches. -/
def getMemCache (s : CacheState) (endpoint : String) (checksum : Int)
    (curTime : Int) : Except PyErr (Option Value) :=
  let cachedata := getProp s.mem endpoint
  if cachedata = "" then .ok none
  else
    match deserializeTriple cachedata with
    | none => .error .evalError
    | some (expires, payload, storedChecksum) =>
        if expires > curTime then
          if checksum = 0 ∨ checksum = storedChecksum then .ok (some payload)
          else .ok none
        else .ok none

/-- `set_mem_cache` (lines 106-113): store `repr((expires, data, checksum))`
in the window property. -/
def setMemCache (s : CacheState) (endpoint : String) (checksum : Int)
    (expires : Int) (data : Value) : CacheState :=
  { s with mem := setProp s.mem endpoint (serializeTriple expires data checksum) }

/-- `get_db_cache` (lines 115-128): SELECT through `execute_sql`; on a row
that is unexpired and checksum-matching, `eval` the data column (raises on
corrupt text) and write the result back into the memory layer with the row's
expiry and the requested checksum. -/
def getDbCache (s : CacheState) (endpoint : String) (checksum : Int)
    (curTime : Int) (att : Nat → Attempt) :
    Except PyErr (Option Value × CacheState) :=
  match execSql att (dbSelect s.db endpoint) with
  | none => .ok (none, s)
  | some fetched =>
      match fetched with
      | none => .ok (none, s)
      | some row =>
          if row.expires > curTime then
            if checksum = 0 ∨ row.checksum = checksum then
              match deserialize row.data with
              | none => .error .evalError
              | some v =>
                  let s' := if s.enableMemCache then
                      setMemCache s endpoint checksum row.expires v
                    else s
                  .ok (some v, s')
            else .ok (none, s)
          else .ok (none, s)

/-- `set_db_cache` (lines 130-134): `INSERT OR REPLACE` through
`execute_sql`, storing `repr(data)`; a failed statement leaves the table
unchanged. -/
def setDbCache (s : CacheState) (endpoint : String) (checksum : Int)
    (expires : Int) (data : Value) (att : Nat → Attempt) : CacheState :=
  match execSql att () with
  | none => s
  | some _ =>
      { s with db := dbUpsert s.db endpoint ⟨expires, serialize data, checksum⟩ }

/-- Python truthiness of the `result` local in `get` (line 67 `if not result`):
`None` and falsy payloads both fail the test. -/
def resultTruthy : Option Value → Bool
  | none => false
  | some v => v.truthy

/-- `get` (lines 53-70).  The local variable `result` is only assigned inside
the `if self.enable_mem_cache:` branch, so with the memory layer disabled the
`if not result:` test raises `UnboundLocalError`, modelled by
`.error .unboundLocal`. -/
def get (s : CacheState) (endpoint : String) (checksumArg : Value)
    (now : Int) (att : Nat → Attempt) :
    Except PyErr (Option Value × CacheState) :=
  let checksum := deriveChecksum checksumArg
  if s.enableMemCache then
    match getMemCache s endpoint checksum now with
    | .error e => .error e
    | .ok r =>
        if resultTruthy r then .ok (r, s)
        else getDbCache s endpoint checksum now att
  else .error .unboundLocal

/-- `set` (lines 72-90): register a `set.<endpoint>` busy task, derive the
checksum and expiry, write the memory layer (when enabled and not exiting),
write the database (when not exiting), then remove the busy task (Python
`list.remove` deletes the first occurrence). -/
def set (s : CacheState) (endpoint : String) (data : Value)
    (checksumArg : Value) (expirationSecs : Int) (now : Int)
    (att : Nat → Attempt) : CacheState :=
  let taskName := "set." ++ endpoint
  let s1 := { s with busyTasks := s.busyTasks ++ [taskName] }
  let checksum := deriveChecksum checksumArg
  let expires := now + expirationSecs
  let s2 := if s1.enableMemCache && !s1.exitFlag then
      setMemCache s1 endpoint checksum expires data
    else s1
  let s3 := if !s2.exitFlag then setDbCache s2 endpoint checksum expires data att
    else s2
  { s3 with busyTasks := s3.busyTasks.erase taskName }

/-- Window property holding the timestamp of the last cleanup run. -/
def cleanKey : String := "simplecache.clean.lastexecuted"

/-- The `__name__` string appended to `busy_tasks` by `do_cleanup`. -/
def cleanTaskName : String := "lib.simplecache"

/-- `auto_clean_interval = datetime.timedelta(hours=4)`, in seconds. -/
def autoCleanInterval : Int := 4 * 60 * 60

/-- The row loop of `do_cleanup` (lines 157-172) over the snapshot returned
by `fetchall`.  `abortSig i` is the value of
`self.exit or self.monitor.abortRequested()` at poll number `i` (poll 0 is
the guard at function entry); an abort mid-loop returns immediately, without
removing the busy task.  Each expired row is deleted through `execute_sql`
with its own retry schedule `att i`. -/
def cleanupLoop (s : CacheState) (now : Int) (abortSig : Nat → Bool)
    (att : Nat → Nat → Attempt) : List (String × Int) → Nat → CacheState
  | [], _ => { s with busyTasks := s.busyTasks.erase cleanTaskName }
  | (id, expires) :: rest, i =>
      if s.exitFlag || abortSig (i + 1) then s
      else
        let s' := { s with mem := clearProp s.mem id }
        let s'' := if expires < now then
            match execSql (att i) () with
            | none => s'
            | some _ => { s' with db := dbDelete s'.db id }
          else s'
        cleanupLoop s'' now abortSig att rest (i + 1)

/-- `do_cleanup` (lines 146-172): bail out if exiting or aborted, register
the busy task, record `now` as the last-executed timestamp, then walk a
snapshot of all rows clearing every memory entry and deleting expired rows. -/
def doCleanup (s : CacheState) (now : Int) (abortSig : Nat → Bool)
    (att : Nat → Nat → Attempt) : CacheState :=
  if s.exitFlag || abortSig 0 then s
  else
    let s1 := { s with
      busyTasks := s.busyTasks ++ [cleanTaskName],
      mem := setProp s.mem cleanKey (serialize (.int now)) }
    cleanupLoop s1 now abortSig att (dbScanAll s1.db) 0

/-- `check_cleanup` (lines 136-144): when no last-executed timestamp is
recorded, record `now` and do nothing else; otherwise `eval` it (raising on
corrupt text) and run `do_cleanup` only when more than the interval has
passed.  The boolean records whether a sweep was invoked. -/
def checkCleanup (s : CacheState) (now : Int) (abortSig : Nat → Bool)
    (att : Nat → Nat → Attempt) : Except PyErr (CacheState × Bool) :=
  let lastexecuted := getProp s.mem cleanKey
  if lastexecuted = "" then
    .ok ({ s with mem := setProp s.mem cleanKey (serialize (.int now)) }, false)
  else
    match deserialize lastexecuted with
    | some (.int t) =>
        if t + autoCleanInterval < now then .ok (doCleanup s now abortSig att, true)
        else .ok (s, false)
    | _ => .error .evalError

end SimpleCache

/-! ## Helper schedules and store lemmas -/

/-- Schedule on which every sqlite attempt succeeds at once. -/
def okAtt : Nat → Attempt := fun _ => .ok

/-- Per-row schedule on which every sqlite attempt succeeds at once. -/
def okAtt2 : Nat → Nat → Attempt := fun _ _ => .ok

/-- Abort signal that is never raised. -/
def neverAbort : Nat → Bool := fun _ => false

theorem execSql_okAtt {α : Type} (r : α) : execSql okAtt r = some r := rfl

theorem execSqlTrace_okAtt {α : Type} (r : α) :
    execSqlTrace okAtt r = ⟨some r, 1, [], false⟩ := rfl

theorem getProp_setProp_self (m : List (String × String)) (k v : String) :
    getProp (setProp m k v) k = v := by
  simp [getProp, setProp]

theorem getProp_clearProp_self (m : List (String × String)) (k : String) :
    getProp (clearProp m k) k = "" := by
  induction m with
  | nil => rfl
  | cons hd tl ih =>
      obtain ⟨a, b⟩ := hd
      show getProp (List.filter _ ((a, b) :: tl)) k = ""
      rw [List.filter_cons]
      by_cases h : a = k
      · rw [if_neg (by simp [h])]
        exact ih
      · rw [if_pos (by simp [h])]
        show (if a = k then b else getProp (clearProp tl k) k) = ""
        rw [if_neg h]
        exact ih

theorem getProp_clearProp_ne (m : List (String × String)) (j k : String)
    (hjk : j ≠ k) : getProp (clearProp m j) k = getProp m k := by
  induction m with
  | nil => rfl
  | cons hd tl ih =>
      obtain ⟨a, b⟩ := hd
      show getProp (List.filter _ ((a, b) :: tl)) k = _
      rw [List.filter_cons]
      by_cases h : a = j
      · rw [if_neg (by simp [h])]
        show getProp (clearProp tl j) k = (if a = k then b else getProp tl k)
        rw [if_neg (by rw [h]; exact hjk)]
        exact ih
      · rw [if_pos (by simp [h])]
        show (if a = k then b else getProp (clearProp tl j) k)
          = (if a = k then b else getProp tl k)
        by_cases h2 : a = k
        · rw [if_pos h2, if_pos h2]
        · rw [if_neg h2, if_neg h2]
          exact ih

theorem getProp_clearProp (m : List (String × String)) (j k : String) :
    getProp (clearProp m j) k = if j = k then "" else getProp m k := by
  by_cases hjk : j = k
  · rw [if_pos hjk, hjk, getProp_clearProp_self]
  · rw [if_neg hjk, getProp_clearProp_ne m j k hjk]

theorem filter_key_idem (m : List (String × String)) (k : String) :
    (m.filter (fun p => p.1 ≠ k)).filter (fun p => p.1 ≠ k)
      = m.filter (fun p => p.1 ≠ k) := by
  induction m with
  | nil => rfl
  | cons hd tl ih =>
      rw [List.filter_cons]
      by_cases h : hd.1 = k
      · rw [if_neg (by simp [h])]
        exact ih
      · rw [if_pos (by simp [h]), List.filter_cons, if_pos (by simp [h]), ih]

theorem setProp_setProp_self (m : List (String × String)) (k a b : String) :
    setProp (setProp m k a) k b = setProp m k b := by
  show (k, b) :: ((k, a) :: m.filter _).filter _ = (k, b) :: m.filter _
  rw [List.filter_cons, if_neg (by simp), filter_key_idem]

theorem dbSelect_dbUpsert_self (db : List (String × DbRow)) (k : String)
    (row : DbRow) : dbSelect (dbUpsert db k row) k = some row := by
  simp [dbSelect, dbUpsert]

theorem deserializeTriple_empty : deserializeTriple "" = none := rfl

theorem deserialize_empty : deserialize "" = none := rfl

/-! ## C5, C6, C9: failing-input evaluations -/

/-- C5: the claim says a stored text that fails to deserialize is treated as
a miss; in the code `eval` is not guarded by any try/except in
`get_mem_cache` (line 100) or `get_db_cache` (line 124), so a corrupt stored
text makes `get` raise to the caller, in either layer. -/
theorem corrupt_entry_raises :
    SimpleCache.get ⟨[("k", "(")], [("j", ⟨100, "(", 0⟩)], [], false, true⟩
        "k" (.str "") 0 okAtt = .error .evalError ∧
    SimpleCache.get ⟨[("k", "(")], [("j", ⟨100, "(", 0⟩)], [], false, true⟩
        "j" (.str "") 0 okAtt = .error .evalError :=
  ⟨rfl, rfl⟩

/-- C6: the claim says that with the memory layer disabled `get` falls back
to the persistent layer and never raises; in the code the local `result` is
only assigned inside `if self.enable_mem_cache:` (line 63-64), so line 67
`if not result:` raises `UnboundLocalError` whenever `enable_mem_cache` is
false. -/
theorem mem_disabled_unbound_local :
    SimpleCache.get ⟨[], [("a", ⟨100, "7", 0⟩)], [], false, false⟩
        "a" (.str "") 0 okAtt = .error .unboundLocal :=
  rfl

/-- C9: the claim says every sweep that registers a busy task unregisters it
on every exit path; the early `return` inside the row loop of `do_cleanup`
(lines 159-160) skips `self.busy_tasks.remove(__name__)`, so a sweep aborted
mid-iteration leaves its task registered (here: abort signal false at entry,
true at the first row). -/
theorem cleanup_busy_task_leak :
    (SimpleCache.doCleanup ⟨[], [("k", ⟨100, "0", 0⟩)], [], false, true⟩ 0
        (fun i => decide (1 ≤ i)) okAtt2).busyTasks = [SimpleCache.cleanTaskName] :=
  rfl

theorem execSqlGo_eq_none_or {α : Type} (att : Nat → Attempt) (r : α) :
    ∀ fuel i, (execSqlGo att r i fuel).result = none
      ∨ (execSqlGo att r i fuel).result = some r := by
  intro fuel
  induction fuel with
  | zero => intro i; exact Or.inl rfl
  | succ n ih =>
      intro i
      cases h : att i with
      | ok => right; simp [execSqlGo, h]
      | err => left; simp [execSqlGo, h]
      | locked => simpa [execSqlGo, h] using ih (i + 1)

theorem execSql_eq_none_or {α : Type} (att : Nat → Attempt) (r : α) :
    execSql att r = none ∨ execSql att r = some r :=
  execSqlGo_eq_none_or att r 10 0

/-! ## C2: validity-token gating -/

/-- C2 counterexample: an entry stored with a non-empty validity value
(stored token 5) is RETURNED to a `get` that supplies no validity value,
and an entry stored with no validity value (stored token 0) is ABSENT to a
`get` that supplies one — the opposite of the claimed gating, because lines
102 and 123 test the requested token, not the stored one. -/
theorem token_gating_counterexample :
    SimpleCache.get ⟨[("k", serializeTriple 100 (.int 7) 5)], [], [], false, true⟩
        "k" (.str "") 0 okAtt
      = .ok (some (.int 7),
          ⟨[("k", serializeTriple 100 (.int 7) 5)], [], [], false, true⟩) ∧
    SimpleCache.get ⟨[("k", serializeTriple 100 (.int 7) 0)], [], [], false, true⟩
        "k" (.str "ab") 0 okAtt
      = .ok (none,
          ⟨[("k", serializeTriple 100 (.int 7) 0)], [], [], false, true⟩) :=
  ⟨rfl, rfl⟩

/-- C2 (amended): in both layers an entry is returned iff it is unexpired
AND (the REQUESTED token is 0 OR it matches the stored token). -/
theorem token_gating_requested (s : CacheState) (k : String) (q now e c : Int)
    (p : Value) (row : DbRow) (v : Value)
    (hmem : deserializeTriple (getProp s.mem k) = some (e, p, c))
    (hrow : dbSelect s.db k = some row)
    (hdata : deserialize row.data = some v) :
    SimpleCache.getMemCache s k q now
      = .ok (if now < e ∧ (q = 0 ∨ q = c) then some p else none) ∧
    (SimpleCache.getDbCache s k q now okAtt).map (fun r => r.1)
      = .ok (if now < row.expires ∧ (q = 0 ∨ row.checksum = q)
          then some v else none) := by
  have hne : getProp s.mem k ≠ "" := by
    intro h
    rw [h, deserializeTriple_empty] at hmem
    exact Option.noConfusion hmem
  constructor
  · simp only [SimpleCache.getMemCache, if_neg hne, hmem]
    by_cases h1 : now < e <;> by_cases h2 : q = 0 ∨ q = c <;>
      simp [gt_iff_lt, h1, h2]
  · simp only [SimpleCache.getDbCache, execSql_okAtt, hrow, hdata]
    by_cases h1 : now < row.expires <;> by_cases h2 : q = 0 ∨ row.checksum = q <;>
      cases hm : s.enableMemCache <;>
        simp [gt_iff_lt, h1, h2, hm, hdata, Except.map]

/-- C2 witness: concrete instantiation of the amended gating equation in
both layers (requested token 0, stored tokens 5 and 6). -/
theorem token_gating_requested_witness :
    SimpleCache.getMemCache
        ⟨[("k", serializeTriple 10 (.int 7) 5)], [("k", ⟨20, "3", 6⟩)], [], false, true⟩
        "k" 0 0 = .ok (some (.int 7)) ∧
    (SimpleCache.getDbCache
        ⟨[("k", serializeTriple 10 (.int 7) 5)], [("k", ⟨20, "3", 6⟩)], [], false, true⟩
        "k" 0 0 okAtt).map (fun r => r.1) = .ok (some (.int 3)) := by
  have h := token_gating_requested
    ⟨[("k", serializeTriple 10 (.int 7) 5)], [("k", ⟨20, "3", 6⟩)], [], false, true⟩
    "k" 0 0 10 5 (.int 7) ⟨20, "3", 6⟩ (.int 3) rfl rfl rfl
  exact ⟨h.1, h.2⟩

/-! ## C3: expiry -/

/-- C3: in both layers, an entry whose `expires` timestamp is ≤ `now`
(including the boundary `now = expires`) is absent to `get`, regardless of
the validity token and of the retry schedule; the full `get` over two
expired layers returns absent. -/
theorem expiry_absent (s : CacheState) (k : String) (q now e c : Int)
    (p : Value) (row : DbRow) (qa : Value) (att : Nat → Attempt)
    (hmem : deserializeTriple (getProp s.mem k) = some (e, p, c))
    (he : e ≤ now)
    (hrow : dbSelect s.db k = some row) (hrowe : row.expires ≤ now)
    (henable : s.enableMemCache = true) :
    SimpleCache.getMemCache s k q now = .ok none ∧
    SimpleCache.getDbCache s k q now att = .ok (none, s) ∧
    SimpleCache.get s k qa now att = .ok (none, s) := by
  have hne : getProp s.mem k ≠ "" := by
    intro h
    rw [h, deserializeTriple_empty] at hmem
    exact Option.noConfusion hmem
  have hmemabs : ∀ q' : Int, SimpleCache.getMemCache s k q' now = .ok none := by
    intro q'
    simp only [SimpleCache.getMemCache, if_neg hne, hmem]
    simp [gt_iff_lt, not_lt.mpr he]
  have hdbabs : ∀ q' : Int, SimpleCache.getDbCache s k q' now att = .ok (none, s) := by
    intro q'
    simp only [SimpleCache.getDbCache, hrow]
    rcases execSql_eq_none_or att (some row) with hx | hx <;> rw [hx] <;>
      simp [gt_iff_lt, not_lt.mpr hrowe]
  refine ⟨hmemabs q, hdbabs q, ?_⟩
  simp only [SimpleCache.get, henable, if_true, hmemabs]
  simpa [SimpleCache.resultTruthy] using hdbabs (deriveChecksum qa)

/-- C3 witness: a concrete state whose memory triple expires at 5 and whose
row expires at 10, read at `now = 10` (the boundary) — absent everywhere. -/
theorem expiry_absent_witness :
    SimpleCache.getMemCache
        ⟨[("k", serializeTriple 5 (.int 7) 0)], [("k", ⟨10, "3", 0⟩)], [], false, true⟩
        "k" 9 10 = .ok none ∧
    SimpleCache.getDbCache
        ⟨[("k", serializeTriple 5 (.int 7) 0)], [("k", ⟨10, "3", 0⟩)], [], false, true⟩
        "k" 9 10 okAtt
      = .ok (none, ⟨[("k", serializeTriple 5 (.int 7) 0)], [("k", ⟨10, "3", 0⟩)], [], false, true⟩) ∧
    SimpleCache.get
        ⟨[("k", serializeTriple 5 (.int 7) 0)], [("k", ⟨10, "3", 0⟩)], [], false, true⟩
        "k" (.str "ab") 10 okAtt
      = .ok (none, ⟨[("k", serializeTriple 5 (.int 7) 0)], [("k", ⟨10, "3", 0⟩)], [], false, true⟩) :=
  expiry_absent _ "k" 9 10 5 0 (.int 7) ⟨10, "3", 0⟩ (.str "ab") okAtt
    rfl (by decide) rfl (by decide) rfl

/-! ## C4: read-through population -/

/-- C4 counterexample: a persistent row with stored token 5 is read through
by a `get` that supplies no validity value; the write-back on line 127 uses
the REQUESTED token (0 here), not the row's own 5, so the populated memory
triple carries token 0. -/
theorem readthrough_counterexample :
    SimpleCache.get ⟨[], [("k", ⟨100, "7", 5⟩)], [], false, true⟩
        "k" (.str "") 0 okAtt
      = .ok (some (.int 7),
          ⟨[("k", serializeTriple 100 (.int 7) 0)], [("k", ⟨100, "7", 5⟩)], [], false, true⟩) ∧
    deserializeTriple (serializeTriple 100 (.int 7) 0) = some (100, .int 7, 0) ∧
    (0 : Int) ≠ 5 :=
  ⟨rfl, rfl, by decide⟩

/-- C4 (amended): a valid persistent-only hit is written back into the
memory layer with the row's own expiry, the deserialized payload and the
REQUESTING call's derived token (which coincides with the row's token
whenever the requested token is non-zero). -/
theorem readthrough_population (s : CacheState) (k : String) (csVal : Value)
    (now : Int) (row : DbRow) (v : Value)
    (henable : s.enableMemCache = true)
    (hmem : getProp s.mem k = "")
    (hrow : dbSelect s.db k = some row)
    (hexp : now < row.expires)
    (htok : deriveChecksum csVal = 0 ∨ row.checksum = deriveChecksum csVal)
    (hdata : deserialize row.data = some v)
    (hrt : deserializeTriple (serializeTriple row.expires v (deriveChecksum csVal))
      = some (row.expires, v, deriveChecksum csVal)) :
    SimpleCache.get s k csVal now okAtt
      = .ok (some v,
          { s with
              mem := setProp s.mem k
                (serializeTriple row.expires v (deriveChecksum csVal)) }) ∧
    deserializeTriple (getProp (setProp s.mem k
        (serializeTriple row.expires v (deriveChecksum csVal))) k)
      = some (row.expires, v, deriveChecksum csVal) := by
  constructor
  · simp only [SimpleCache.get, henable, if_true]
    rw [show SimpleCache.getMemCache s k (deriveChecksum csVal) now = .ok none by
      simp [SimpleCache.getMemCache, hmem]]
    simp only [SimpleCache.resultTruthy]
    simp only [SimpleCache.getDbCache, execSql_okAtt, hrow, hdata]
    simp [gt_iff_lt, hexp, htok, henable, SimpleCache.setMemCache]
  · rw [getProp_setProp_self]
    exact hrt

/-- C4 witness: concrete read-through of a row with token 5 requested with a
matching validity value. -/
theorem readthrough_population_witness :
    SimpleCache.get ⟨[], [("k", ⟨100, "7", 5⟩)], [], false, true⟩
        "k" (.str "abc") 0 okAtt
      = .ok (some (.int 7),
          ⟨[("k", serializeTriple 100 (.int 7) (deriveChecksum (.str "abc")))],
            [("k", ⟨100, "7", 5⟩)], [], false, true⟩) ∧
    deserializeTriple (getProp (setProp [] "k"
        (serializeTriple 100 (.int 7) (deriveChecksum (.str "abc")))) "k")
      = some (100, .int 7, deriveChecksum (.str "abc")) :=
  readthrough_population ⟨[], [("k", ⟨100, "7", 5⟩)], [], false, true⟩
    "k" (.str "abc") 0 ⟨100, "7", 5⟩ (.int 7)
    rfl rfl rfl (by decide) (Or.inr rfl) rfl rfl

/-! ## C10: first cleanup check never sweeps -/

/-- C10: when no last-executed timestamp is recorded, `check_cleanup`
records `now` and does not sweep; when one is recorded, it sweeps iff the
timestamp lies more than `auto_clean_interval` (4 hours) in the past. -/
theorem first_check_no_sweep (s : CacheState) (now t : Int)
    (ab : Nat → Bool) (att : Nat → Nat → Attempt) :
    (getProp s.mem SimpleCache.cleanKey = "" →
      SimpleCache.checkCleanup s now ab att
        = .ok ({ s with
            mem := setProp s.mem SimpleCache.cleanKey (serialize (.int now)) },
          false)) ∧
    (deserialize (getProp s.mem SimpleCache.cleanKey) = some (.int t) →
      (t + SimpleCache.autoCleanInterval < now →
        SimpleCache.checkCleanup s now ab att
          = .ok (SimpleCache.doCleanup s now ab att, true)) ∧
      (¬ t + SimpleCache.autoCleanInterval < now →
        SimpleCache.checkCleanup s now ab att = .ok (s, false))) := by
  constructor
  · intro h
    simp [SimpleCache.checkCleanup, h]
  · intro hparse
    have hne : getProp s.mem SimpleCache.cleanKey ≠ "" := by
      intro h
      rw [h, deserialize_empty] at hparse
      exact Option.noConfusion hparse
    constructor
    · intro hlate
      simp [SimpleCache.checkCleanup, if_neg hne, hparse, hlate]
    · intro hearly
      simp [SimpleCache.checkCleanup, if_neg hne, hparse, hearly]

/-- C10 witness: an empty property bag records the time without sweeping; a
recorded timestamp 0 sweeps at `now = 20000` (more than 4 h later) and does
not sweep at `now = 10`. -/
theorem first_check_no_sweep_witness :
    SimpleCache.checkCleanup ⟨[], [], [], false, true⟩ 5 neverAbort okAtt2
      = .ok (⟨[(SimpleCache.cleanKey, serialize (.int 5))], [], [], false, true⟩, false) ∧
    SimpleCache.checkCleanup
        ⟨[(SimpleCache.cleanKey, serialize (.int 0))], [], [], false, true⟩
        20000 neverAbort okAtt2
      = .ok (SimpleCache.doCleanup
          ⟨[(SimpleCache.cleanKey, serialize (.int 0))], [], [], false, true⟩
          20000 neverAbort okAtt2, true) ∧
    SimpleCache.checkCleanup
        ⟨[(SimpleCache.cleanKey, serialize (.int 0))], [], [], false, true⟩
        10 neverAbort okAtt2
      = .ok (⟨[(SimpleCache.cleanKey, serialize (.int 0))], [], [], false, true⟩, false) :=
  ⟨(first_check_no_sweep ⟨[], [], [], false, true⟩ 5 0 neverAbort okAtt2).1 rfl,
   ((first_check_no_sweep
      ⟨[(SimpleCache.cleanKey, serialize (.int 0))], [], [], false, true⟩
      20000 0 neverAbort okAtt2).2 rfl).1 (by decide),
   ((first_check_no_sweep
      ⟨[(SimpleCache.cleanKey, serialize (.int 0))], [], [], false, true⟩
      10 0 neverAbort okAtt2).2 rfl).2 (by decide)⟩

/-! ## C1: set followed by get round-trips -/

/-- Characterization of `set` on the happy path (memory enabled, not
exiting, statement succeeds): both layers are written with
`expires = now + ttl` and the derived token, and the busy task is removed
again. -/
theorem set_characterization (s : CacheState) (k : String) (v : Value)
    (ttl now : Int)
    (henable : s.enableMemCache = true) (hexit : s.exitFlag = false) :
    SimpleCache.set s k v (.str "") ttl now okAtt =
      { mem := setProp s.mem k (serializeTriple (now + ttl) v 0),
        db := dbUpsert s.db k ⟨now + ttl, serialize v, 0⟩,
        busyTasks := (s.busyTasks ++ ["set." ++ k]).erase ("set." ++ k),
        exitFlag := false,
        enableMemCache := true } := by
  have hq : deriveChecksum (.str "") = 0 := rfl
  simp [SimpleCache.set, SimpleCache.setMemCache, SimpleCache.setDbCache,
    henable, hexit, hq, execSql_okAtt]

/-- C1: storing a serializable value with a positive ttl and no validity
value, then reading it back before the ttl elapses, returns an equal value
(the two round-trip hypotheses say exactly that the stored texts deserialize
back to the stored value). -/
theorem set_get_roundtrip (s : CacheState) (k : String) (v : Value)
    (now now2 ttl : Int)
    (henable : s.enableMemCache = true) (hexit : s.exitFlag = false)
    (httl : 0 < ttl) (hnow : now2 < now + ttl)
    (hrt : deserializeTriple (serializeTriple (now + ttl) v 0)
      = some (now + ttl, v, 0))
    (hrt2 : deserialize (serialize v) = some v) :
    SimpleCache.get (SimpleCache.set s k v (.str "") ttl now okAtt) k
        (.str "") now2 okAtt
      = .ok (some v, SimpleCache.set s k v (.str "") ttl now okAtt) := by
  rw [set_characterization s k v ttl now henable hexit]
  have hne : serializeTriple (now + ttl) v 0 ≠ "" := by
    intro h
    rw [h, deserializeTriple_empty] at hrt
    exact Option.noConfusion hrt
  have hq : deriveChecksum (.str "") = 0 := rfl
  have hmemhit : SimpleCache.getMemCache
      { mem := setProp s.mem k (serializeTriple (now + ttl) v 0),
        db := dbUpsert s.db k ⟨now + ttl, serialize v, 0⟩,
        busyTasks := (s.busyTasks ++ ["set." ++ k]).erase ("set." ++ k),
        exitFlag := false,
        enableMemCache := true } k 0 now2 = .ok (some v) := by
    simp only [SimpleCache.getMemCache, getProp_setProp_self, if_neg hne, hrt]
    simp [gt_iff_lt, hnow]
  simp only [SimpleCache.get, hq, hmemhit]
  cases htr : v.truthy with
  | true => simp [SimpleCache.resultTruthy, htr]
  | false =>
      simp only [SimpleCache.resultTruthy, htr, Bool.false_eq_true, if_false]
      simp only [SimpleCache.getDbCache, execSql_okAtt, dbSelect_dbUpsert_self]
      simp only [gt_iff_lt, hnow, if_true, hrt2]
      simp [SimpleCache.setMemCache, setProp_setProp_self, henable]

/-- C1 witness: the end-to-end example of the specification — store the
dict value at key `a` with ttl 1, read it back immediately. -/
theorem set_get_roundtrip_witness :
    SimpleCache.get (SimpleCache.set ⟨[], [], [], false, true⟩ "a"
        (.dict [(.str "x", .int 1)]) (.str "") 1 0 okAtt) "a" (.str "") 0 okAtt
      = .ok (some (.dict [(.str "x", .int 1)]),
          SimpleCache.set ⟨[], [], [], false, true⟩ "a"
            (.dict [(.str "x", .int 1)]) (.str "") 1 0 okAtt) :=
  set_get_roundtrip ⟨[], [], [], false, true⟩ "a" (.dict [(.str "x", .int 1)])
    0 0 1 rfl rfl (by decide) (by decide) rfl rfl

/-! ## C7: retry wrapper -/

theorem execSqlGo_bounds {α : Type} (att : Nat → Attempt) (r : α) :
    ∀ fuel i,
      (execSqlGo att r i fuel).attempts ≤ fuel ∧
      (∀ j, j + 1 < (execSqlGo att r i fuel).attempts → att (i + j) = .locked) ∧
      (∀ w ∈ (execSqlGo att r i fuel).waits, w = waitMs) ∧
      (execSqlGo att r i fuel).attempts
        ≤ (execSqlGo att r i fuel).waits.length + 1 ∧
      (execSqlGo att r i fuel).warned
        = (execSqlGo att r i fuel).result.isNone := by
  intro fuel
  induction fuel with
  | zero =>
      intro i
      refine ⟨?_, ?_, ?_, ?_, ?_⟩ <;> simp [execSqlGo]
  | succ n ih =>
      intro i
      cases h : att i with
      | ok =>
          refine ⟨?_, ?_, ?_, ?_, ?_⟩ <;> simp [execSqlGo, h]
      | err =>
          refine ⟨?_, ?_, ?_, ?_, ?_⟩ <;> simp [execSqlGo, h]
      | locked =>
          obtain ⟨ih1, ih2, ih3, ih4, ih5⟩ := ih (i + 1)
          refine ⟨?_, ?_, ?_, ?_, ?_⟩ <;> simp only [execSqlGo, h]
          · simpa using ih1
          · intro j hj
            match j with
            | 0 => exact h
            | j2 + 1 =>
                have : j2 + 1 < (execSqlGo att r (i + 1) n).attempts := by
                  simpa using hj
                have := ih2 j2 this
                rw [show i + (j2 + 1) = i + 1 + j2 by omega]
                exact this
          · intro w hw
            simp only [List.mem_cons] at hw
            rcases hw with hw | hw
            · exact hw
            · exact ih3 w hw
          · simpa using ih4
          · exact ih5

theorem execSqlGo_none_of_fail {α : Type} (att : Nat → Attempt) (r : α)
    (hfail : ∀ i, att i ≠ .ok) :
    ∀ fuel i, (execSqlGo att r i fuel).result = none := by
  intro fuel
  induction fuel with
  | zero => intro i; rfl
  | succ n ih =>
      intro i
      cases h : att i with
      | ok => exact absurd h (hfail i)
      | err => simp [execSqlGo, h]
      | locked => simpa [execSqlGo, h] using ih (i + 1)

/-- C7: the `execute_sql` wrapper makes at most 10 attempts, waits 500 ms
between attempts, re-attempts only after a `database is locked` failure,
logs the warning exactly when it returns failure instead of raising, and a
schedule that never succeeds yields `None` — which `get_db_cache` treats as
a miss and `set_db_cache` treats as "write not applied" (state unchanged). -/
theorem retry_wrapper_bounds {α : Type} (att1 att2 : Nat → Attempt) (r : α)
    (s : CacheState) (k : String) (q now cs e : Int) (v : Value)
    (hfail : ∀ i, att2 i ≠ .ok) :
    (execSqlTrace att1 r).attempts ≤ 10 ∧
    ((List.range ((execSqlTrace att1 r).attempts - 1)).all
      fun j => att1 j == Attempt.locked) = true ∧
    ((execSqlTrace att1 r).waits.all fun w => w == waitMs) = true ∧
    waitMs = 500 ∧
    (execSqlTrace att1 r).attempts ≤ (execSqlTrace att1 r).waits.length + 1 ∧
    (execSqlTrace att1 r).warned = (execSqlTrace att1 r).result.isNone ∧
    execSql att2 r = none ∧
    SimpleCache.getDbCache s k q now att2 = .ok (none, s) ∧
    SimpleCache.setDbCache s k cs e v att2 = s := by
  obtain ⟨h1, h2, h3, h4, h5⟩ := execSqlGo_bounds att1 r 10 0
  have hnone : ∀ (β : Type) (r2 : β), execSql att2 r2 = none := by
    intro β r2
    exact execSqlGo_none_of_fail att2 r2 hfail 10 0
  refine ⟨h1, ?_, ?_, rfl, h4, h5, hnone α r, ?_, ?_⟩
  · rw [List.all_eq_true]
    intro j hj
    rw [List.mem_range] at hj
    rw [beq_iff_eq]
    have hx : (execSqlTrace att1 r).attempts = (execSqlGo att1 r 0 10).attempts := rfl
    have := h2 j (by omega)
    simpa using this
  · rw [List.all_eq_true]
    intro w hw
    rw [beq_iff_eq]
    exact h3 w hw
  · simp only [SimpleCache.getDbCache, hnone (Option DbRow) (dbSelect s.db k)]
  · simp only [SimpleCache.setDbCache, hnone Unit ()]

/-- C7 witness: the always-locked schedule exhausts the retries on a
concrete state and leaves it unchanged. -/
theorem retry_wrapper_bounds_witness :
    (execSqlTrace (fun _ => Attempt.locked) (0 : Nat)).attempts ≤ 10 ∧
    ((List.range ((execSqlTrace (fun _ => Attempt.locked) (0 : Nat)).attempts - 1)).all
      fun j => (fun _ => Attempt.locked) j == Attempt.locked) = true ∧
    ((execSqlTrace (fun _ => Attempt.locked) (0 : Nat)).waits.all
      fun w => w == waitMs) = true ∧
    waitMs = 500 ∧
    (execSqlTrace (fun _ => Attempt.locked) (0 : Nat)).attempts
      ≤ (execSqlTrace (fun _ => Attempt.locked) (0 : Nat)).waits.length + 1 ∧
    (execSqlTrace (fun _ => Attempt.locked) (0 : Nat)).warned
      = (execSqlTrace (fun _ => Attempt.locked) (0 : Nat)).result.isNone ∧
    execSql (fun _ => Attempt.locked) (0 : Nat) = none ∧
    SimpleCache.getDbCache ⟨[], [("k", ⟨100, "7", 0⟩)], [], false, true⟩ "k" 0 0
        (fun _ => Attempt.locked)
      = .ok (none, ⟨[], [("k", ⟨100, "7", 0⟩)], [], false, true⟩) ∧
    SimpleCache.setDbCache ⟨[], [("k", ⟨100, "7", 0⟩)], [], false, true⟩ "k" 0 50
        (.int 9) (fun _ => Attempt.locked)
      = ⟨[], [("k", ⟨100, "7", 0⟩)], [], false, true⟩ :=
  retry_wrapper_bounds (fun _ => Attempt.locked) (fun _ => Attempt.locked) 0
    ⟨[], [("k", ⟨100, "7", 0⟩)], [], false, true⟩ "k" 0 0 0 50 (.int 9)
    (fun _ h => Attempt.noConfusion h)

/-! ## C8: cleanup-sweep semantics -/

theorem execSql_okAtt2 {α : Type} (i : Nat) (r : α) :
    execSql (okAtt2 i) r = some r := rfl

theorem getProp_foldl_clear (k : String) :
    ∀ (rows : List (String × Int)) (m : List (String × String)),
      getProp (rows.foldl (fun m p => clearProp m p.1) m) k
        = if ∃ p ∈ rows, p.1 = k then "" else getProp m k := by
  intro rows
  induction rows with
  | nil => intro m; simp
  | cons p rest ih =>
      intro m
      rw [List.foldl_cons, ih (clearProp m p.1), getProp_clearProp]
      by_cases hp : p.1 = k
      · by_cases hr : ∃ q ∈ rest, q.1 = k <;> simp [hp, hr]
      · by_cases hr : ∃ q ∈ rest, q.1 = k <;> simp [hp, hr]

theorem cleanupLoop_noAbort (now : Int) :
    ∀ (rows : List (String × Int)) (s : CacheState) (i : Nat),
      s.exitFlag = false →
      SimpleCache.cleanupLoop s now neverAbort okAtt2 rows i =
        { mem := rows.foldl (fun m p => clearProp m p.1) s.mem,
          db := rows.foldl
            (fun d p => if p.2 < now then dbDelete d p.1 else d) s.db,
          busyTasks := s.busyTasks.erase SimpleCache.cleanTaskName,
          exitFlag := s.exitFlag,
          enableMemCache := s.enableMemCache } := by
  intro rows
  induction rows with
  | nil => intro s i hexit; rfl
  | cons p rest ih =>
      intro s i hexit
      obtain ⟨id, e⟩ := p
      simp only [SimpleCache.cleanupLoop, hexit, neverAbort, Bool.or_self,
        Bool.false_eq_true, if_false, List.foldl_cons, execSql_okAtt2]
      by_cases he : e < now
      · simp only [he, if_true]
        exact ih _ (i + 1) rfl
      · simp only [he, if_false]
        exact ih _ (i + 1) rfl

theorem foldl_del_filter (now : Int) :
    ∀ (rows : List (String × Int)) (db : List (String × DbRow)),
      rows.foldl (fun d p => if p.2 < now then dbDelete d p.1 else d) db
        = db.filter (fun kv => decide (∀ p ∈ rows, p.2 < now → p.1 ≠ kv.1)) := by
  intro rows
  induction rows with
  | nil => intro db; simp
  | cons p rest ih =>
      intro db
      rw [List.foldl_cons, ih]
      by_cases hp : p.2 < now
      · rw [if_pos hp]
        show (List.filter _ (List.filter _ db)) = _
        rw [List.filter_filter]
        refine List.filter_congr ?_
        intro kv _
        simp only [ne_eq]
        have hiff : (¬ kv.1 = p.1) ↔ (p.2 < now → ¬ p.1 = kv.1) := by
          constructor
          · intro h _ hpk
            exact h hpk.symm
          · intro h hkp
            exact h hp hkp.symm
        rw [Bool.and_comm, decide_eq_decide.mpr hiff]
        have h2 : (decide (∀ q ∈ p :: rest, q.2 < now → ¬ q.1 = kv.1) : Bool)
            = (decide (p.2 < now → ¬ p.1 = kv.1)
                && decide (∀ q ∈ rest, q.2 < now → ¬ q.1 = kv.1)) := by
          rw [decide_eq_decide.mpr
            (@List.forall_mem_cons _ (fun q => q.2 < now → ¬ q.1 = kv.1) p rest)]
          exact Bool.decide_and _ _
        rw [h2]
      · rw [if_neg hp]
        refine List.filter_congr ?_
        intro kv _
        simp [List.forall_mem_cons, hp]

theorem eq_of_key_eq_of_nodup :
    ∀ (db : List (String × DbRow)), (db.map Prod.fst).Nodup →
      ∀ a ∈ db, ∀ b ∈ db, a.1 = b.1 → a = b := by
  intro db
  induction db with
  | nil => intro _ a ha; exact absurd ha (List.not_mem_nil a)
  | cons hd tl ih =>
      intro hnodup a ha b hb hab
      rw [List.map_cons, List.nodup_cons] at hnodup
      rcases List.mem_cons.mp ha with ha1 | ha1 <;>
        rcases List.mem_cons.mp hb with hb1 | hb1
      · rw [ha1, hb1]
      · exfalso
        apply hnodup.1
        rw [← ha1, hab]
        exact List.mem_map.mpr ⟨b, hb1, rfl⟩
      · exfalso
        apply hnodup.1
        rw [← hb1, ← hab]
        exact List.mem_map.mpr ⟨a, ha1, rfl⟩
      · exact ih hnodup.2 a ha1 b hb1 hab

theorem scan_filter_eq (now : Int) (db : List (String × DbRow))
    (hnodup : (db.map Prod.fst).Nodup) :
    db.filter (fun kv => decide (∀ p ∈ dbScanAll db, p.2 < now → p.1 ≠ kv.1))
      = db.filter (fun kv => decide (¬ kv.2.expires < now)) := by
  refine List.filter_congr ?_
  intro kv hkv
  rw [decide_eq_decide]
  constructor
  · intro hall hexp
    exact hall (kv.1, kv.2.expires)
      (List.mem_map.mpr ⟨kv, hkv, rfl⟩) hexp rfl
  · intro hlive p hp hlt heq
    obtain ⟨kv2, hkv2, hpeq⟩ := List.mem_map.mp hp
    have h1 : kv2.1 = kv.1 := by rw [← heq, ← hpeq]
    have h2 : kv2 = kv := eq_of_key_eq_of_nodup db hnodup kv2 hkv2 kv hkv h1
    apply hlive
    rw [← h2]
    rw [← hpeq] at hlt
    exact hlt

theorem doCleanup_noAbort (s : CacheState) (now : Int)
    (hexit : s.exitFlag = false) :
    SimpleCache.doCleanup s now neverAbort okAtt2 =
      { mem := (dbScanAll s.db).foldl (fun m p => clearProp m p.1)
          (setProp s.mem SimpleCache.cleanKey (serialize (.int now))),
        db := s.db.filter
          (fun kv => decide (∀ p ∈ dbScanAll s.db, p.2 < now → p.1 ≠ kv.1)),
        busyTasks := (s.busyTasks ++ [SimpleCache.cleanTaskName]).erase
          SimpleCache.cleanTaskName,
        exitFlag := false,
        enableMemCache := s.enableMemCache } := by
  simp only [SimpleCache.doCleanup, hexit, neverAbort, Bool.or_self,
    Bool.false_eq_true, if_false]
  rw [cleanupLoop_noAbort now _ _ 0 rfl]
  rw [foldl_del_filter]

/-- C8: a completed sweep clears the memory entry of every scanned key
unconditionally, deletes a persistent row exactly when its expiry is in the
past, keeps the row of a non-expired entry while its memory entry is gone,
and a second immediate sweep leaves the persistent contents unchanged. -/
theorem cleanup_sweep_semantics (s : CacheState) (now : Int)
    (kv kv2 : String × DbRow)
    (hexit : s.exitFlag = false)
    (hnodup : (s.db.map Prod.fst).Nodup)
    (hkv : kv ∈ s.db)
    (hkv2 : kv2 ∈ s.db)
    (hkv2live : ¬ kv2.2.expires < now) :
    getProp (SimpleCache.doCleanup s now neverAbort okAtt2).mem kv.1 = "" ∧
    (SimpleCache.doCleanup s now neverAbort okAtt2).db
      = s.db.filter (fun p => decide (¬ p.2.expires < now)) ∧
    kv2 ∈ (SimpleCache.doCleanup s now neverAbort okAtt2).db ∧
    getProp (SimpleCache.doCleanup s now neverAbort okAtt2).mem kv2.1 = "" ∧
    (SimpleCache.doCleanup (SimpleCache.doCleanup s now neverAbort okAtt2)
        now neverAbort okAtt2).db
      = (SimpleCache.doCleanup s now neverAbort okAtt2).db := by
  have hchar := doCleanup_noAbort s now hexit
  have hdb : (SimpleCache.doCleanup s now neverAbort okAtt2).db
      = s.db.filter (fun p => decide (¬ p.2.expires < now)) := by
    rw [hchar]
    exact scan_filter_eq now s.db hnodup
  have hmemclear : ∀ q : String × DbRow, q ∈ s.db →
      getProp (SimpleCache.doCleanup s now neverAbort okAtt2).mem q.1 = "" := by
    intro q hq
    rw [hchar]
    show getProp ((dbScanAll s.db).foldl _ _) q.1 = ""
    rw [getProp_foldl_clear]
    rw [if_pos ⟨(q.1, q.2.expires), List.mem_map.mpr ⟨q, hq, rfl⟩, rfl⟩]
  refine ⟨hmemclear kv hkv, hdb, ?_, hmemclear kv2 hkv2, ?_⟩
  · rw [hdb]
    exact List.mem_filter.mpr ⟨hkv2, by simpa using hkv2live⟩
  · have hexit2 : (SimpleCache.doCleanup s now neverAbort okAtt2).exitFlag = false := by
      rw [hchar]
    have hnodup2 : ((SimpleCache.doCleanup s now neverAbort okAtt2).db.map
        Prod.fst).Nodup := by
      rw [hdb]
      exact List.Nodup.sublist (List.Sublist.map Prod.fst (List.filter_sublist s.db)) hnodup
    have h2 := doCleanup_noAbort _ now hexit2
    rw [h2]
    show ((SimpleCache.doCleanup s now neverAbort okAtt2).db.filter _) = _
    rw [scan_filter_eq now _ hnodup2]
    refine List.filter_eq_self.mpr ?_
    intro p hp
    rw [hdb] at hp
    exact (List.mem_filter.mp hp).2

/-- C8 witness: a two-row table (one expired row, one live row) swept at
`now = 0`: both memory entries cleared, only the expired row deleted, second
sweep a no-op on the table. -/
theorem cleanup_sweep_semantics_witness :
    getProp (SimpleCache.doCleanup
        ⟨[("a", "x"), ("b", "y")], [("a", ⟨10, "1", 0⟩), ("b", ⟨-5, "2", 0⟩)],
          [], false, true⟩ 0 neverAbort okAtt2).mem "b" = "" ∧
    (SimpleCache.doCleanup
        ⟨[("a", "x"), ("b", "y")], [("a", ⟨10, "1", 0⟩), ("b", ⟨-5, "2", 0⟩)],
          [], false, true⟩ 0 neverAbort okAtt2).db
      = List.filter (fun p => decide (¬ p.2.expires < 0))
          [("a", ⟨10, "1", 0⟩), ("b", ⟨-5, "2", 0⟩)] ∧
    ("a", (⟨10, "1", 0⟩ : DbRow)) ∈ (SimpleCache.doCleanup
        ⟨[("a", "x"), ("b", "y")], [("a", ⟨10, "1", 0⟩), ("b", ⟨-5, "2", 0⟩)],
          [], false, true⟩ 0 neverAbort okAtt2).db ∧
    getProp (SimpleCache.doCleanup
        ⟨[("a", "x"), ("b", "y")], [("a", ⟨10, "1", 0⟩), ("b", ⟨-5, "2", 0⟩)],
          [], false, true⟩ 0 neverAbort okAtt2).mem "a" = "" ∧
    (SimpleCache.doCleanup (SimpleCache.doCleanup
        ⟨[("a", "x"), ("b", "y")], [("a", ⟨10, "1", 0⟩), ("b", ⟨-5, "2", 0⟩)],
          [], false, true⟩ 0 neverAbort okAtt2) 0 neverAbort okAtt2).db
      = (SimpleCache.doCleanup
        ⟨[("a", "x"), ("b", "y")], [("a", ⟨10, "1", 0⟩), ("b", ⟨-5, "2", 0⟩)],
          [], false, true⟩ 0 neverAbort okAtt2).db :=
  cleanup_sweep_semantics
    ⟨[("a", "x"), ("b", "y")], [("a", ⟨10, "1", 0⟩), ("b", ⟨-5, "2", 0⟩)],
      [], false, true⟩ 0 ("b", ⟨-5, "2", 0⟩) ("a", ⟨10, "1", 0⟩)
    rfl (by simp) (by simp) (by simp) (by simp)
